import Mathlib

/-!
Shallow embedding of the collaborative-whiteboard core: element data model,
screen/world geometry, wheel zoom, hit-testing, gesture handlers, linear
undo/redo history, and the collaboration message handlers. Numeric values are
modelled over `ℚ` (the source runs on IEEE doubles; all claims are stated and
settled over exact arithmetic, as the spec's "exactly, over exact rationals"
reading prescribes).
-/

/-- World- or screen-space coordinate pair (types/whiteboard `Point`). -/
structure Point where
  x : ℚ
  y : ℚ
deriving DecidableEq, Repr

/-- The element kinds of `WhiteboardElement.type` in types/whiteboard. -/
inductive ElementType
  | path
  | rectangle
  | circle
  | arrow
  | line
  | text
  | stickyNote
  | richNote
deriving DecidableEq, Repr

/-- The tool union of types/whiteboard. -/
inductive Tool
  | select
  | pen
  | rectangle
  | circle
  | arrow
  | line
  | text
  | stickyNote
  | richNote
deriving DecidableEq, Repr

/-- Drawable element (types/whiteboard `WhiteboardElement`). Optional numeric
fields stay `Option ℚ` so that the JavaScript `x || d` defaulting reads can be
modelled faithfully. The `richNote` payload is irrelevant to every claim and
is omitted. -/
structure WhiteboardElement where
  id : String
  type : ElementType
  x : ℚ
  y : ℚ
  width : Option ℚ := none
  height : Option ℚ := none
  points : Option (List Point) := none
  text : Option String := none
  color : String
  strokeWidth : ℚ
  fill : Option String := none
  selected : Option Bool := none
deriving DecidableEq, Repr

/-- JavaScript `v || d` on an optional number: `undefined` and `0` are falsy. -/
def qOr (v : Option ℚ) (d : ℚ) : ℚ :=
  match v with
  | none => d
  | some q => if q = 0 then d else q

/-- JavaScript `v || d` on an optional string: `undefined` and `""` are falsy. -/
def sOr (v : Option String) (d : String) : String :=
  match v with
  | none => d
  | some s => if s = "" then d else s

/-- JavaScript truthiness of an optional string (`if (element.fill)` etc.). -/
def sTruthy (v : Option String) : Bool :=
  match v with
  | none => false
  | some s => s ≠ ""

/-- Pan/zoom viewport (types/whiteboard `ViewportState`). -/
structure ViewportState where
  x : ℚ
  y : ℚ
  zoom : ℚ
deriving DecidableEq, Repr

/-- Canvas.tsx `screenToCanvas`: converts a raw client-space event point to a
world-space point. `rectLeft`/`rectTop` are the canvas bounding rectangle's
offset (`canvas.getBoundingClientRect()`); the `!canvas` early return of the
source is a React ref-mount guard and is not modelled (the canvas is mounted
whenever events fire). -/
def screenToCanvas (screenX screenY rectLeft rectTop : ℚ) (v : ViewportState) : Point :=
  { x := (screenX - rectLeft - v.x) / v.zoom
    y := (screenY - rectTop - v.y) / v.zoom }

/-- Canvas.tsx `handleWheel`: rescale zoom by 0.9 / 1.1, clamp to `[0.1, 5]`,
and translate the viewport so the cursor's world point keeps its screen
position. `clientX`/`clientY` are raw event coordinates; `rectLeft`/`rectTop`
the canvas rectangle offset. -/
def handleWheel (deltaY clientX clientY rectLeft rectTop : ℚ) (v : ViewportState) :
    ViewportState :=
  let zoomFactor : ℚ := if deltaY > 0 then 9/10 else 11/10
  let newZoom : ℚ := max (1/10) (min 5 (v.zoom * zoomFactor))
  let mouseX : ℚ := clientX - rectLeft
  let mouseY : ℚ := clientY - rectTop
  { x := v.x - (mouseX - v.x) * (newZoom / v.zoom - 1)
    y := v.y - (mouseY - v.y) * (newZoom / v.zoom - 1)
    zoom := newZoom }

/-- A wheel event's data, for stating properties of wheel-event sequences. -/
structure WheelEvent where
  deltaY : ℚ
  clientX : ℚ
  clientY : ℚ
  rectLeft : ℚ
  rectTop : ℚ
deriving DecidableEq, Repr

/-- Apply one wheel event to the viewport. -/
def applyWheel (v : ViewportState) (ev : WheelEvent) : ViewportState :=
  handleWheel ev.deltaY ev.clientX ev.clientY ev.rectLeft ev.rectTop v

/-- Canvas.tsx `isPointInElement`. The source's circle case compares
`Math.sqrt(dx*dx + dy*dy) <= radius` over the reals; this is equivalent to
`0 ≤ radius ∧ dx*dx + dy*dy ≤ radius^2` (see the C6 theorem, which proves the
bridge through `Real.sqrt`), which keeps the definition rational and
decidable. -/
def isPointInElement (point : Point) (element : WhiteboardElement) : Bool :=
  match element.type with
  | .rectangle | .stickyNote =>
      decide (element.x ≤ point.x ∧ point.x ≤ element.x + qOr element.width 0 ∧
        element.y ≤ point.y ∧ point.y ≤ element.y + qOr element.height 0)
  | .circle =>
      let centerX := element.x + qOr element.width 0 / 2
      let centerY := element.y + qOr element.height 0 / 2
      let radius := min (qOr element.width 0 / 2) (qOr element.height 0 / 2)
      let distSq := (point.x - centerX) ^ 2 + (point.y - centerY) ^ 2
      decide (0 ≤ radius ∧ distSq ≤ radius ^ 2)
  | _ => false

/-- C3: `screenToCanvas` computes `(screen - viewport.offset) / zoom`
componentwise on the canvas-relative screen point, and is the exact inverse of
the forward transform `world * zoom + viewport.offset` whenever `zoom ≠ 0`.
It is a pure function of its arguments by construction. -/
theorem screenToCanvas_inverse (sx sy rl rt : ℚ) (v : ViewportState)
    (hz : v.zoom ≠ 0) :
    screenToCanvas sx sy rl rt v =
      { x := ((sx - rl) - v.x) / v.zoom, y := ((sy - rt) - v.y) / v.zoom } ∧
    (screenToCanvas sx sy rl rt v).x * v.zoom + v.x = sx - rl ∧
    (screenToCanvas sx sy rl rt v).y * v.zoom + v.y = sy - rt := by
  refine ⟨rfl, ?_, ?_⟩ <;>
    simp only [screenToCanvas] <;> field_simp

/-- Clamping puts the post-event zoom inside `[0.1, 5]`, whatever the prior
zoom was. -/
theorem applyWheel_zoom_bounds (v : ViewportState) (ev : WheelEvent) :
    1/10 ≤ (applyWheel v ev).zoom ∧ (applyWheel v ev).zoom ≤ 5 := by
  refine ⟨le_max_left _ _, max_le (by norm_num) (min_le_left _ _)⟩

/-- Algebraic core of zoom-to-cursor: the translation adjustment keeps
`world * newZoom + offset` at the cursor for any new zoom value. -/
theorem zoomFixedPoint (m vx z zNew : ℚ) (hz : z ≠ 0) :
    ((m - vx) / z) * zNew + (vx - (m - vx) * (zNew / z - 1)) = m := by
  field_simp
  ring

/-- C4: a wheel event sets zoom to the old zoom times 0.9 (scroll down) or 1.1
(scroll up), clamped to `[0.1, 5]`; after every event of any wheel-event
sequence the zoom lies in `[0.1, 5]`; and the world point under the cursor
maps to the same canvas-relative screen point after the event as before it
(zoom-to-cursor fixed point, exact over `ℚ`). -/
theorem handleWheel_clamped_and_cursor_fixed (dY cx cy rl rt : ℚ) (v : ViewportState)
    (hlo : 1/10 ≤ v.zoom) :
    (handleWheel dY cx cy rl rt v).zoom
        = max (1/10) (min 5 (v.zoom * (if dY > 0 then 9/10 else 11/10))) ∧
    (1/10 ≤ (handleWheel dY cx cy rl rt v).zoom ∧
      (handleWheel dY cx cy rl rt v).zoom ≤ 5) ∧
    (∀ (evs : List WheelEvent) (ev : WheelEvent) (v0 : ViewportState),
      1/10 ≤ (List.foldl applyWheel v0 (evs ++ [ev])).zoom ∧
      (List.foldl applyWheel v0 (evs ++ [ev])).zoom ≤ 5) ∧
    ((screenToCanvas cx cy rl rt v).x * (handleWheel dY cx cy rl rt v).zoom
        + (handleWheel dY cx cy rl rt v).x = cx - rl ∧
      (screenToCanvas cx cy rl rt v).y * (handleWheel dY cx cy rl rt v).zoom
        + (handleWheel dY cx cy rl rt v).y = cy - rt) := by
  have hz : v.zoom ≠ 0 := by positivity
  refine ⟨rfl, applyWheel_zoom_bounds v ⟨dY, cx, cy, rl, rt⟩, ?_, ?_, ?_⟩
  · intro evs ev v0
    rw [List.foldl_append]
    exact applyWheel_zoom_bounds _ ev
  · exact zoomFixedPoint (cx - rl) v.x v.zoom _ hz
  · exact zoomFixedPoint (cy - rt) v.y v.zoom _ hz

/-- C4 witness: the theorem applied at zoom 1, cursor (100, 100), scroll up. -/
theorem handleWheel_clamped_and_cursor_fixed_witness :
    (1:ℚ)/10 ≤ (ViewportState.mk 0 0 1).zoom ∧
    ((screenToCanvas 100 100 0 0 (ViewportState.mk 0 0 1)).x *
        (handleWheel (-3) 100 100 0 0 (ViewportState.mk 0 0 1)).zoom
        + (handleWheel (-3) 100 100 0 0 (ViewportState.mk 0 0 1)).x = 100 - 0) :=
  ⟨by norm_num,
    (handleWheel_clamped_and_cursor_fixed (-3) 100 100 0 0 (ViewportState.mk 0 0 1)
      (by norm_num)).2.2.2.1⟩

/-- Top-level application state (App component): the element collection, the
linear history stack of whole-collection snapshots, and the current history
index. -/
structure AppState where
  elements : List WhiteboardElement
  history : List (List WhiteboardElement)
  historyIndex : Nat
deriving DecidableEq, Repr

/-- App's initial React state: no elements, history `[[]]`, index 0. -/
def initialAppState : AppState :=
  { elements := [], history := [[]], historyIndex := 0 }

/-- App `handleElementsChange`: set the elements, truncate history to
`[0..historyIndex]` (`history.slice(0, historyIndex + 1)`), append the new
snapshot, and point the index at the new last entry. The debounced auto-save
call is a persistence side effect with no bearing on this state. -/
def handleElementsChange (newElements : List WhiteboardElement) (s : AppState) : AppState :=
  let newHistory := s.history.take (s.historyIndex + 1) ++ [newElements]
  { elements := newElements
    history := newHistory
    historyIndex := newHistory.length - 1 }

/-- App `handleUndo`: when the index is positive, decrement it and display
that snapshot (`history[newIndex]`, in bounds in every reachable state);
otherwise do nothing. -/
def handleUndo (s : AppState) : AppState :=
  if 0 < s.historyIndex then
    { s with historyIndex := s.historyIndex - 1
             elements := s.history.getD (s.historyIndex - 1) [] }
  else s

/-- App `handleRedo`: when the index is below the last position, increment it
and display that snapshot; otherwise do nothing. -/
def handleRedo (s : AppState) : AppState :=
  if s.historyIndex < s.history.length - 1 then
    { s with historyIndex := s.historyIndex + 1
             elements := s.history.getD (s.historyIndex + 1) [] }
  else s

/-- App `handleCollaborativeElementsUpdate`: replace the collection wholesale;
deliberately records nothing into history. -/
def handleCollaborativeElementsUpdate (newElements : List WhiteboardElement)
    (s : AppState) : AppState :=
  { s with elements := newElements }

/-- App session-load effect: when the loaded collection is non-empty, display
it and reset history to `[[], loaded]` with index 1; otherwise leave state
alone. -/
def loadSession (loaded : List WhiteboardElement) (s : AppState) : AppState :=
  if loaded ≠ [] then
    { elements := loaded, history := [[], loaded], historyIndex := 1 }
  else s

/-- An inbound `elements-update` realtime message as seen by `onMessage` in
useCollaboration: sender id and full-collection payload (the timestamp rides
along and is never read). -/
structure ElementsMessage where
  userId : String
  elements : List WhiteboardElement
  timestamp : ℚ
deriving DecidableEq, Repr

/-- The useCollaboration `onMessage` branch for `elements-update`: messages
from a different user replace the local collection via
`handleCollaborativeElementsUpdate`; messages carrying the local user's own id
are dropped. -/
def processElementsMessage (selfId : String) (m : ElementsMessage) (s : AppState) :
    AppState :=
  if m.userId ≠ selfId then handleCollaborativeElementsUpdate m.elements s else s

/-- The documented operations that mutate App-level history/element state. -/
inductive AppOp
  | commit (newElements : List WhiteboardElement)
  | undo
  | redo
  | remote (selfId : String) (m : ElementsMessage)
  | load (loaded : List WhiteboardElement)

/-- Apply one documented operation to the App state. -/
def applyOp (s : AppState) : AppOp → AppState
  | .commit n => handleElementsChange n s
  | .undo => handleUndo s
  | .redo => handleRedo s
  | .remote selfId m => processElementsMessage selfId m s
  | .load l => loadSession l s

/-- Whether an operation is an inbound remote elements-update. -/
def AppOp.isRemote : AppOp → Bool
  | .remote _ _ => true
  | _ => false

/-- A concrete element (the `createNewElement` default-branch shape) used for
concrete history/collaboration scenarios. -/
def sampleElement (idStr : String) : WhiteboardElement :=
  { id := idStr, type := .rectangle, x := 0, y := 0, width := some 0, height := some 0,
    color := "#000000", strokeWidth := 2 }

/-- Snapshot committed as "commit A" in the concrete history scenario. -/
def snapshotA : List WhiteboardElement := [sampleElement "a"]

/-- Snapshot committed as "commit B" in the concrete history scenario. -/
def snapshotB : List WhiteboardElement := [sampleElement "a", sampleElement "b"]

/-- Snapshot committed as "commit C" in the concrete history scenario. -/
def snapshotC : List WhiteboardElement := [sampleElement "a", sampleElement "c"]

/-- Folding local commits over a state whose index points at the last history
entry appends every snapshot in order and tracks the last entry. -/
theorem foldl_commits (ls : List (List WhiteboardElement)) :
    ∀ (e0 : List WhiteboardElement) (h0 : List (List WhiteboardElement)), h0 ≠ [] →
      List.foldl (fun s n => handleElementsChange n s) ⟨e0, h0, h0.length - 1⟩ ls
        = ⟨ls.getLastD e0, h0 ++ ls, (h0 ++ ls).length - 1⟩ := by
  induction ls with
  | nil => intro e0 h0 _; simp
  | cons n ls ih =>
    intro e0 h0 hne
    rw [List.foldl_cons]
    have hlen : h0.length - 1 + 1 = h0.length :=
      Nat.succ_pred_eq_of_pos (List.length_pos.mpr hne)
    have hstep : handleElementsChange n ⟨e0, h0, h0.length - 1⟩
        = ⟨n, h0 ++ [n], (h0 ++ [n]).length - 1⟩ := by
      simp [handleElementsChange, hlen, List.take_length]
    rw [hstep]
    have h1 : (h0 ++ [n] : List (List WhiteboardElement)) ≠ [] := by simp
    rw [ih n (h0 ++ [n]) h1, List.getLastD_cons]
    simp [List.append_assoc]

/-- Undoing `k` times from index `k` drives the index to 0 and displays the
base snapshot (or keeps the elements if `k = 0`). -/
theorem iterate_undo (k : Nat) :
    ∀ (e : List WhiteboardElement) (h : List (List WhiteboardElement)),
      handleUndo^[k] ⟨e, h, k⟩ = ⟨if k = 0 then e else h.getD 0 [], h, 0⟩ := by
  induction k with
  | zero => intro e h; simp
  | succ k ih =>
    intro e h
    rw [Function.iterate_succ_apply]
    have hstep : handleUndo ⟨e, h, k + 1⟩ = ⟨h.getD k [], h, k⟩ := by
      simp [handleUndo]
    rw [hstep, ih]
    by_cases hk : k = 0 <;> simp [hk]

/-- C2: the history manager is a linear snapshot stack — `record` truncates to
`[0..index]`, appends, and points the index at the new last entry; `undo` and
`redo` move the index one step when possible and are no-ops otherwise; after
`n` commits from the initial state, `n` undos reach the empty initial
collection; redo after undo restores the pre-undo state; and in the sequence
commit A, commit B, undo, commit C the redo branch is discarded: redo is a
no-op and the state is C, not B. -/
theorem history_linear_stack :
    (∀ (n : List WhiteboardElement) (s : AppState),
      handleElementsChange n s =
        { elements := n
          history := s.history.take (s.historyIndex + 1) ++ [n]
          historyIndex := (s.history.take (s.historyIndex + 1) ++ [n]).length - 1 }) ∧
    (∀ s : AppState, 0 < s.historyIndex →
      handleUndo s = { elements := s.history.getD (s.historyIndex - 1) []
                       history := s.history
                       historyIndex := s.historyIndex - 1 }) ∧
    (∀ s : AppState, s.historyIndex = 0 → handleUndo s = s) ∧
    (∀ s : AppState, s.historyIndex < s.history.length - 1 →
      handleRedo s = { elements := s.history.getD (s.historyIndex + 1) []
                       history := s.history
                       historyIndex := s.historyIndex + 1 }) ∧
    (∀ s : AppState, ¬ s.historyIndex < s.history.length - 1 → handleRedo s = s) ∧
    (∀ ls : List (List WhiteboardElement),
      (handleUndo^[ls.length]
          (List.foldl (fun s n => handleElementsChange n s) initialAppState ls)).elements
        = [] ∧
      (handleUndo^[ls.length]
          (List.foldl (fun s n => handleElementsChange n s) initialAppState ls)).historyIndex
        = 0) ∧
    (∀ s : AppState, s.historyIndex < s.history.length →
      s.history.getD s.historyIndex [] = s.elements → 0 < s.historyIndex →
      handleRedo (handleUndo s) = s) ∧
    (handleRedo (handleElementsChange snapshotC (handleUndo
        (handleElementsChange snapshotB (handleElementsChange snapshotA initialAppState))))
      = handleElementsChange snapshotC (handleUndo
        (handleElementsChange snapshotB (handleElementsChange snapshotA initialAppState))) ∧
     (handleElementsChange snapshotC (handleUndo
        (handleElementsChange snapshotB (handleElementsChange snapshotA initialAppState)))).elements
      = snapshotC ∧
     snapshotC ≠ snapshotB) := by
  refine ⟨fun n s => rfl, ?_, ?_, ?_, ?_, ?_, ?_, ?_, ?_, ?_⟩
  · intro s hpos
    simp [handleUndo, hpos]
  · intro s h0
    simp [handleUndo, h0]
  · intro s hlt
    simp [handleRedo, hlt]
  · intro s hge
    simp [handleRedo, hge]
  · intro ls
    have hbase : initialAppState = (⟨[], [[]], ([[]] : List (List WhiteboardElement)).length - 1⟩ : AppState) := rfl
    rw [hbase, foldl_commits ls [] [[]] (by simp)]
    have hidx : (([[]] : List (List WhiteboardElement)) ++ ls).length - 1 = ls.length := by
      simp
    rw [hidx, iterate_undo]
    constructor
    · by_cases hls : ls.length = 0
      · simp [hls, List.length_eq_zero.mp hls]
      · simp [hls]
    · rfl
  · intro s hlt hinv hpos
    obtain ⟨e, h, i⟩ := s
    simp only at hlt hinv hpos
    have hu : handleUndo ⟨e, h, i⟩ = ⟨h.getD (i - 1) [], h, i - 1⟩ := by
      simp [handleUndo, hpos]
    rw [hu]
    have hcond : i - 1 < h.length - 1 := by omega
    have hsucc : i - 1 + 1 = i := Nat.succ_pred_eq_of_pos hpos
    rw [List.getD_eq_getElem?_getD] at hinv
    simp [handleRedo, hcond, hsucc, hinv]
  · decide
  · decide
  · decide

/-- C2 witness: the conditional parts of the history theorem applied at
concrete states. -/
theorem history_linear_stack_witness :
    (0 < (AppState.mk snapshotA [[], snapshotA] 1).historyIndex ∧
      handleUndo (AppState.mk snapshotA [[], snapshotA] 1)
        = { elements := (AppState.mk snapshotA [[], snapshotA] 1).history.getD
              ((AppState.mk snapshotA [[], snapshotA] 1).historyIndex - 1) []
            history := (AppState.mk snapshotA [[], snapshotA] 1).history
            historyIndex := (AppState.mk snapshotA [[], snapshotA] 1).historyIndex - 1 }) ∧
    ((AppState.mk snapshotA [[], snapshotA] 1).historyIndex
        < (AppState.mk snapshotA [[], snapshotA] 1).history.length ∧
      (AppState.mk snapshotA [[], snapshotA] 1).history.getD
        (AppState.mk snapshotA [[], snapshotA] 1).historyIndex []
        = (AppState.mk snapshotA [[], snapshotA] 1).elements ∧
      handleRedo (handleUndo (AppState.mk snapshotA [[], snapshotA] 1))
        = AppState.mk snapshotA [[], snapshotA] 1) :=
  ⟨⟨by decide, history_linear_stack.2.1 _ (by decide)⟩,
    by decide, by decide,
    history_linear_stack.2.2.2.2.2.2.1 _ (by decide) (by decide) (by decide)⟩

/-- C1: an inbound elements-update whose sender is not the local user replaces
the element collection wholly with the payload while leaving the history stack
and index untouched (no undo entry), so a subsequent undo returns the snapshot
preceding the last locally recorded commit exactly as it would have without
the remote replacement; a message carrying the local user's own id leaves the
state unchanged. -/
theorem remote_update_replaces_without_history (selfId : String)
    (m mSelf : ElementsMessage) (s : AppState)
    (hremote : m.userId ≠ selfId) (hself : mSelf.userId = selfId)
    (hpos : 0 < s.historyIndex) :
    (processElementsMessage selfId m s).elements = m.elements ∧
    (processElementsMessage selfId m s).history = s.history ∧
    (processElementsMessage selfId m s).historyIndex = s.historyIndex ∧
    (handleUndo (processElementsMessage selfId m s)).elements
      = s.history.getD (s.historyIndex - 1) [] ∧
    (handleUndo (processElementsMessage selfId m s)).elements = (handleUndo s).elements ∧
    processElementsMessage selfId mSelf s = s := by
  simp [processElementsMessage, handleCollaborativeElementsUpdate, hremote, hself,
    handleUndo, hpos]

/-- C1 witness: a remote update from "other" against local user "me" at a
one-commit history, plus an echo message from "me" itself. -/
theorem remote_update_replaces_without_history_witness :
    (ElementsMessage.mk "other" snapshotB 0).userId ≠ "me" ∧
    (ElementsMessage.mk "me" snapshotC 7).userId = "me" ∧
    0 < (AppState.mk snapshotA [[], snapshotA] 1).historyIndex ∧
    (processElementsMessage "me" (ElementsMessage.mk "other" snapshotB 0)
        (AppState.mk snapshotA [[], snapshotA] 1)).elements
      = (ElementsMessage.mk "other" snapshotB 0).elements ∧
    (handleUndo (processElementsMessage "me" (ElementsMessage.mk "other" snapshotB 0)
        (AppState.mk snapshotA [[], snapshotA] 1))).elements
      = (handleUndo (AppState.mk snapshotA [[], snapshotA] 1)).elements :=
  have h := remote_update_replaces_without_history "me"
    (ElementsMessage.mk "other" snapshotB 0) (ElementsMessage.mk "me" snapshotC 7)
    (AppState.mk snapshotA [[], snapshotA] 1)
    (by decide) (by decide) (by decide)
  ⟨by decide, by decide, by decide, h.1, h.2.2.2.2.1⟩

/-- One documented operation keeps the history index strictly below the
history length. -/
theorem applyOp_preserves_bounds (s : AppState) (op : AppOp)
    (h : s.historyIndex < s.history.length) :
    (applyOp s op).historyIndex < (applyOp s op).history.length := by
  cases op with
  | commit n =>
      simp [applyOp, handleElementsChange]
  | undo =>
      by_cases hp : 0 < s.historyIndex <;> simp [applyOp, handleUndo, hp] <;> omega
  | redo =>
      by_cases hp : s.historyIndex < s.history.length - 1 <;>
        simp [applyOp, handleRedo, hp] <;> omega
  | remote selfId m =>
      by_cases hr : m.userId ≠ selfId <;>
        simp [applyOp, processElementsMessage, handleCollaborativeElementsUpdate, hr] <;>
        exact h
  | load l =>
      by_cases hl : l = [] <;> simp [applyOp, loadSession, hl] <;> exact h

/-- Any non-remote documented operation keeps the current history snapshot
equal to the displayed collection. -/
theorem applyOp_preserves_display (s : AppState) (op : AppOp)
    (hop : op.isRemote = false)
    (h : s.history.getD s.historyIndex [] = s.elements) :
    (applyOp s op).history.getD (applyOp s op).historyIndex []
      = (applyOp s op).elements := by
  simp only [List.getD_eq_getElem?_getD] at h
  cases op with
  | commit n =>
      simp only [applyOp, handleElementsChange]
      rw [List.length_append, List.length_singleton]
      have : (s.history.take (s.historyIndex + 1)).length + 1 - 1
          = (s.history.take (s.historyIndex + 1)).length := by omega
      rw [this, List.getD_eq_getElem?_getD, List.getElem?_append_right (le_refl _)]
      simp
  | undo =>
      by_cases hp : 0 < s.historyIndex <;> simp [applyOp, handleUndo, hp] <;> exact h
  | redo =>
      by_cases hp : s.historyIndex < s.history.length - 1 <;>
        simp [applyOp, handleRedo, hp] <;> exact h
  | remote selfId m =>
      simp [AppOp.isRemote] at hop
  | load l =>
      by_cases hl : l = [] <;> simp [applyOp, loadSession, hl] <;> exact h

/-- Bounds invariant lifted to operation sequences. -/
theorem foldl_preserves_bounds (ops : List AppOp) :
    ∀ s : AppState, s.historyIndex < s.history.length →
      (List.foldl applyOp s ops).historyIndex < (List.foldl applyOp s ops).history.length := by
  induction ops with
  | nil => intro s h; exact h
  | cons op ops ih =>
      intro s h
      rw [List.foldl_cons]
      exact ih _ (applyOp_preserves_bounds s op h)

/-- Display invariant lifted to remote-free operation sequences. -/
theorem foldl_preserves_display (ops : List AppOp) :
    ∀ s : AppState, (∀ op ∈ ops, op.isRemote = false) →
      s.history.getD s.historyIndex [] = s.elements →
      (List.foldl applyOp s ops).history.getD
        (List.foldl applyOp s ops).historyIndex []
      = (List.foldl applyOp s ops).elements := by
  induction ops with
  | nil => intro s _ h; exact h
  | cons op ops ih =>
      intro s hops h
      rw [List.foldl_cons]
      exact ih _ (fun o ho => hops o (List.mem_cons_of_mem _ ho))
        (applyOp_preserves_display s op (hops op (List.mem_cons_self op ops)) h)

/-- C9 counterexample: a single documented operation from the initial state —
an inbound remote elements-update — produces a reachable state in which the
current history snapshot differs from the displayed element collection. -/
theorem history_invariant_counterexample :
    (applyOp initialAppState (.remote "me" (ElementsMessage.mk "other" snapshotA 0))).history.getD
        (applyOp initialAppState (.remote "me" (ElementsMessage.mk "other" snapshotA 0))).historyIndex []
      ≠ (applyOp initialAppState (.remote "me" (ElementsMessage.mk "other" snapshotA 0))).elements := by
  decide

/-- C9 amended: along any sequence of documented operations from the initial
state, `historyIndex` stays strictly below the history length (hence
`snapshots[currentIndex]` is well defined); the stronger equality
`snapshots[currentIndex] = displayed collection` holds along any sequence free
of remote elements-updates, but a remote elements-update may break it (it
replaces the collection without touching history). -/
theorem history_invariant_amended (ops : List AppOp) :
    (List.foldl applyOp initialAppState ops).historyIndex
      < (List.foldl applyOp initialAppState ops).history.length ∧
    ((∀ op ∈ ops, op.isRemote = false) →
      (List.foldl applyOp initialAppState ops).history.getD
        (List.foldl applyOp initialAppState ops).historyIndex []
      = (List.foldl applyOp initialAppState ops).elements) := by
  constructor
  · exact foldl_preserves_bounds ops initialAppState (by decide)
  · intro hops
    exact foldl_preserves_display ops initialAppState hops rfl

/-- C9 witness: the amended invariant evaluated over a concrete remote-free
operation sequence. -/
theorem history_invariant_amended_witness :
    (∀ op ∈ [AppOp.commit snapshotA, AppOp.undo, AppOp.redo], op.isRemote = false) ∧
    (List.foldl applyOp initialAppState [AppOp.commit snapshotA, AppOp.undo, AppOp.redo]).history.getD
      (List.foldl applyOp initialAppState [AppOp.commit snapshotA, AppOp.undo, AppOp.redo]).historyIndex []
      = (List.foldl applyOp initialAppState [AppOp.commit snapshotA, AppOp.undo, AppOp.redo]).elements :=
  have hops : ∀ op ∈ [AppOp.commit snapshotA, AppOp.undo, AppOp.redo],
      op.isRemote = false := by
    intro op hop
    simp only [List.mem_cons, List.not_mem_nil, or_false] at hop
    rcases hop with h | h | h <;> subst h <;> rfl
  ⟨hops, (history_invariant_amended [AppOp.commit snapshotA, AppOp.undo, AppOp.redo]).2 hops⟩

/-- A remote user's cursor as stored in `CollaborationState.cursors`
(types/whiteboard `UserCursor`). -/
structure UserCursor where
  userId : String
  x : ℚ
  y : ℚ
  displayName : String
  color : String
deriving DecidableEq, Repr

/-- An inbound `cursor-move` realtime message as seen by `onMessage` in
useCollaboration: sender id, position payload, the broadcast timestamp (never
read by the handler), and the optional metadata fields. -/
structure CursorMessage where
  userId : String
  x : ℚ
  y : ℚ
  timestamp : ℚ
  displayName : Option String
  color : Option String
deriving DecidableEq, Repr

/-- The cursor entry built from a message (`metadata?.displayName || 'Anonymous'`,
`metadata?.color || '#666'`). -/
def cursorOfMessage (m : CursorMessage) : UserCursor :=
  { userId := m.userId, x := m.x, y := m.y
    displayName := sOr m.displayName "Anonymous"
    color := sOr m.color "#666" }

/-- The useCollaboration `onMessage` branch for `cursor-move`: a message from
another user removes any existing entry with the sender's id and appends the
fresh entry; a message carrying the local user's own id is dropped. -/
def processCursorMessage (selfId : String) (cursors : List UserCursor)
    (m : CursorMessage) : List UserCursor :=
  if m.userId ≠ selfId then
    cursors.filter (fun c => c.userId != m.userId) ++ [cursorOfMessage m]
  else cursors

/-- Process a whole inbound `cursor-move` sequence from the initial (empty)
cursor mapping. -/
def processCursorMessages (selfId : String) (msgs : List CursorMessage) :
    List UserCursor :=
  List.foldl (processCursorMessage selfId) [] msgs

/-- One processed cursor message preserves distinctness of stored user ids. -/
theorem processCursorMessage_pairwise (selfId : String) (cs : List UserCursor)
    (m : CursorMessage) (h : cs.Pairwise (fun a b => a.userId ≠ b.userId)) :
    (processCursorMessage selfId cs m).Pairwise (fun a b => a.userId ≠ b.userId) := by
  unfold processCursorMessage
  split
  · refine List.pairwise_append.mpr
      ⟨h.sublist (List.filter_sublist _), List.pairwise_singleton _ _, ?_⟩
    intro a ha b hb
    simp only [List.mem_singleton] at hb
    subst hb
    have hmem := (List.mem_filter.mp ha).2
    simpa [cursorOfMessage, bne_iff_ne] using hmem
  · exact h

/-- Distinctness of stored user ids, lifted to message sequences. -/
theorem foldl_cursor_pairwise (selfId : String) (msgs : List CursorMessage) :
    ∀ cs : List UserCursor, cs.Pairwise (fun a b => a.userId ≠ b.userId) →
      (List.foldl (processCursorMessage selfId) cs msgs).Pairwise
        (fun a b => a.userId ≠ b.userId) := by
  induction msgs with
  | nil => intro cs h; exact h
  | cons m msgs ih =>
      intro cs h
      rw [List.foldl_cons]
      exact ih _ (processCursorMessage_pairwise selfId cs m h)

/-- The entries stored for a fixed remote user id after a message sequence:
exactly the entry built from that user's last processed message (and the prior
entries if the user sent nothing). -/
theorem foldl_cursor_filter (selfId u : String) (hu : u ≠ selfId)
    (msgs : List CursorMessage) :
    ∀ cs : List UserCursor,
      (List.foldl (processCursorMessage selfId) cs msgs).filter
          (fun c => c.userId == u)
        = ((msgs.filter (fun mm => mm.userId == u)).getLast?).elim
            (cs.filter (fun c => c.userId == u)) (fun mm => [cursorOfMessage mm]) := by
  induction msgs with
  | nil => intro cs; rfl
  | cons m msgs ih =>
      intro cs
      rw [List.foldl_cons, ih]
      by_cases hm : m.userId = u
      · have hms : m.userId ≠ selfId := by rw [hm]; exact hu
        have hstep : (processCursorMessage selfId cs m).filter (fun c => c.userId == u)
            = [cursorOfMessage m] := by
          simp only [processCursorMessage, if_pos hms, List.filter_append,
            List.filter_filter]
          have h1 : cs.filter (fun c => (c.userId == u) && (c.userId != m.userId)) = [] := by
            refine List.filter_eq_nil_iff.mpr ?_
            intro c _
            by_cases hc : c.userId = u <;> simp [hc, hm]
          have h2 : List.filter (fun c => c.userId == u) [cursorOfMessage m]
              = [cursorOfMessage m] := by
            simp [cursorOfMessage, hm]
          rw [h1, h2, List.nil_append]
        rw [hstep]
        have hfcons : (m :: msgs).filter (fun mm => mm.userId == u)
            = m :: msgs.filter (fun mm => mm.userId == u) := by
          simp [hm]
        rw [hfcons]
        cases hlast : (msgs.filter (fun mm => mm.userId == u)).getLast? with
        | none =>
            have : msgs.filter (fun mm => mm.userId == u) = [] :=
              List.getLast?_eq_none_iff.mp hlast
            simp [this]
        | some mm =>
            simp [List.getLast?_cons, List.getLastD_eq_getLast?, hlast]
      · have hstep : (processCursorMessage selfId cs m).filter (fun c => c.userId == u)
            = cs.filter (fun c => c.userId == u) := by
          unfold processCursorMessage
          split
          · rw [List.filter_append, List.filter_filter]
            have h1 : cs.filter (fun c => (c.userId == u) && (c.userId != m.userId))
                = cs.filter (fun c => c.userId == u) := by
              refine List.filter_congr ?_
              intro c _
              by_cases hc : c.userId = u
              · have hne2 : u ≠ m.userId := fun hh => hm hh.symm
                rw [hc]
                simp [bne_iff_ne, hne2]
              · simp [hc]
            have h2 : List.filter (fun c => c.userId == u) [cursorOfMessage m] = [] := by
              simp [cursorOfMessage, hm]
            rw [h1, h2, List.append_nil]
          · rfl
        rw [hstep]
        have hfcons : (m :: msgs).filter (fun mm => mm.userId == u)
            = msgs.filter (fun mm => mm.userId == u) := by
          simp [hm]
        rw [hfcons]

/-- C8: a cursor-move message from the local user's own id is ignored (echo
suppression); after processing any sequence of cursor-move messages the cursor
mapping holds pairwise-distinct user ids (at most one entry per user); the
entries for a remote user are exactly the one built from the last message
processed for that user — independent of the timestamps carried, as the
concrete out-of-timestamp-order pair at the end confirms. -/
theorem cursor_upsert_last_wins (selfId u : String) (msgs : List CursorMessage)
    (cs : List UserCursor) (m : CursorMessage)
    (hu : u ≠ selfId) (hm : m.userId = selfId) :
    processCursorMessage selfId cs m = cs ∧
    (processCursorMessages selfId msgs).Pairwise (fun a b => a.userId ≠ b.userId) ∧
    (processCursorMessages selfId msgs).filter (fun c => c.userId == u)
      = ((msgs.filter (fun mm => mm.userId == u)).getLast?).elim []
          (fun mm => [cursorOfMessage mm]) ∧
    processCursorMessages "me"
        [CursorMessage.mk "remote" 1 1 100 none none,
         CursorMessage.mk "remote" 2 2 50 none none]
      = [cursorOfMessage (CursorMessage.mk "remote" 2 2 50 none none)] := by
  refine ⟨by simp [processCursorMessage, hm], ?_, ?_, by decide⟩
  · exact foldl_cursor_pairwise selfId msgs [] List.Pairwise.nil
  · have := foldl_cursor_filter selfId u hu msgs []
    simpa [processCursorMessages] using this

/-- C8 witness: the theorem applied with local user "me", remote user
"remote", and a concrete echo message. -/
theorem cursor_upsert_last_wins_witness :
    "remote" ≠ "me" ∧
    (CursorMessage.mk "me" 3 3 7 none none).userId = "me" ∧
    (processCursorMessages "me" [CursorMessage.mk "remote" 1 1 100 none none]).filter
        (fun c => c.userId == "remote")
      = (([CursorMessage.mk "remote" 1 1 100 none none].filter
          (fun mm => mm.userId == "remote")).getLast?).elim []
          (fun mm => [cursorOfMessage mm]) :=
  ⟨by decide, by decide,
    (cursor_upsert_last_wins "me" "remote" [CursorMessage.mk "remote" 1 1 100 none none]
      [] (CursorMessage.mk "me" 3 3 7 none none) (by decide) (by decide)).2.2.1⟩

/-- Transient drawing-gesture state (types/whiteboard `DrawingState`). -/
structure DrawingState where
  isDrawing : Bool
  currentPath : List Point
  currentElement : Option WhiteboardElement
deriving DecidableEq, Repr

/-- The element type produced by the source's `type: tool as any` cast in the
default creation branch. `pen`, `text` and `sticky-note` have dedicated
branches; `select` never reaches creation because `handleMouseDown` returns
beforehand (it is mapped to `.rectangle` here only to totalize the
function). -/
def toolElementType : Tool → ElementType
  | .pen => .path
  | .text => .text
  | .stickyNote => .stickyNote
  | .rectangle => .rectangle
  | .circle => .circle
  | .arrow => .arrow
  | .line => .line
  | .richNote => .richNote
  | .select => .rectangle

/-- Canvas.tsx `createNewElement`. `generateId()` draws randomness, so the
fresh id is a parameter. -/
def createNewElement (id : String) (tool : Tool) (point : Point) (color : String)
    (width : ℚ) : WhiteboardElement :=
  match tool with
  | .pen =>
      { id := id, type := .path, x := point.x, y := point.y, points := some [point]
        color := color, strokeWidth := width }
  | .text =>
      { id := id, type := .text, x := point.x, y := point.y, text := some "Text"
        color := color, strokeWidth := width }
  | .stickyNote =>
      { id := id, type := .stickyNote, x := point.x, y := point.y
        width := some 100, height := some 100, text := some "Note"
        color := color, strokeWidth := width, fill := some "#fef08a" }
  | t =>
      { id := id, type := toolElementType t, x := point.x, y := point.y
        width := some 0, height := some 0, color := color, strokeWidth := width }

/-- Canvas.tsx `updateElementWithPoint`: freehand paths extend their point
sequence; rectangle, circle and line track `width = point.x - origin.x`,
`height = point.y - origin.y` (sign preserved); other kinds are fixed-size on
creation. -/
def updateElementWithPoint (element : WhiteboardElement) (point : Point)
    (currentPath : List Point) : WhiteboardElement :=
  match element.type with
  | .path => { element with points := some (currentPath ++ [point]) }
  | .rectangle | .circle =>
      { element with width := some (point.x - element.x)
                     height := some (point.y - element.y) }
  | .line =>
      { element with width := some (point.x - element.x)
                     height := some (point.y - element.y) }
  | _ => element

/-- Combined Canvas + App interactive state: the App state, the Canvas-local
gesture state, the viewport, and the logs of collection broadcasts and cursor
broadcasts sent to collaborators. -/
structure WhiteboardState where
  app : AppState
  drawing : DrawingState
  isPanning : Bool
  lastPanPoint : Point
  viewport : ViewportState
  broadcasts : List (List WhiteboardElement)
  cursorBroadcasts : List Point
deriving DecidableEq, Repr

/-- Initial interactive state: App's initial state, no gesture in progress,
identity viewport. -/
def initialWhiteboardState : WhiteboardState :=
  { app := initialAppState
    drawing := { isDrawing := false, currentPath := [], currentElement := none }
    isPanning := false
    lastPanPoint := { x := 0, y := 0 }
    viewport := { x := 0, y := 0, zoom := 1 }
    broadcasts := []
    cursorBroadcasts := [] }

/-- Canvas.tsx `handleMouseDown`: with the select tool, hit-test in storage
order (`elements.find`) — on a hit, set each element's `selected` flag to
whether its id equals the hit element's id; on a miss, start panning and clear
every `selected` flag; both go through `onElementsChange`. With any other
tool, start a drawing gesture with a freshly created element. `freshId`
stands for the `generateId()` call. -/
def handleMouseDown (tool : Tool) (strokeColor : String) (strokeWidth : ℚ)
    (freshId : String) (clientX clientY rectLeft rectTop : ℚ)
    (s : WhiteboardState) : WhiteboardState :=
  let point := screenToCanvas clientX clientY rectLeft rectTop s.viewport
  if tool = .select then
    match s.app.elements.find? (fun el => isPointInElement point el) with
    | some clickedElement =>
        let updatedElements := s.app.elements.map
          (fun el => { el with selected := some (el.id == clickedElement.id) })
        { s with app := handleElementsChange updatedElements s.app }
    | none =>
        let updatedElements := s.app.elements.map
          (fun el => { el with selected := some false })
        { s with isPanning := true
                 lastPanPoint := { x := clientX, y := clientY }
                 app := handleElementsChange updatedElements s.app }
  else
    { s with drawing :=
        { isDrawing := true
          currentPath := [point]
          currentElement :=
            some (createNewElement freshId tool point strokeColor strokeWidth) } }

/-- Canvas.tsx `handleMouseMove`: broadcast the world cursor position; while
panning, shift the viewport by the raw screen-space delta; while drawing,
rebuild the current element from the new world point (appending to
`currentPath` only when the pen tool is active). -/
def handleMouseMove (tool : Tool) (clientX clientY rectLeft rectTop : ℚ)
    (s : WhiteboardState) : WhiteboardState :=
  let point := screenToCanvas clientX clientY rectLeft rectTop s.viewport
  let sb := { s with cursorBroadcasts := s.cursorBroadcasts ++ [point] }
  if sb.isPanning then
    { sb with
        viewport := { sb.viewport with
          x := sb.viewport.x + (clientX - sb.lastPanPoint.x)
          y := sb.viewport.y + (clientY - sb.lastPanPoint.y) }
        lastPanPoint := { x := clientX, y := clientY } }
  else
    match sb.drawing.isDrawing, sb.drawing.currentElement with
    | true, some el =>
        { sb with drawing := { sb.drawing with
            currentPath :=
              if tool = .pen then sb.drawing.currentPath ++ [point]
              else sb.drawing.currentPath
            currentElement := some (updateElementWithPoint el point
              sb.drawing.currentPath) } }
    | _, _ => sb

/-- Canvas.tsx `handleMouseUp`: finish panning, or commit the in-progress
element by appending it to the collection (recording a history snapshot via
`onElementsChange` and broadcasting the updated collection), then clear the
drawing state. -/
def handleMouseUp (s : WhiteboardState) : WhiteboardState :=
  if s.isPanning then { s with isPanning := false }
  else
    let s1 :=
      match s.drawing.isDrawing, s.drawing.currentElement with
      | true, some el =>
          let newElements := s.app.elements ++ [el]
          { s with app := handleElementsChange newElements s.app
                   broadcasts := s.broadcasts ++ [newElements] }
      | _, _ => s
    { s1 with drawing := { isDrawing := false, currentPath := [], currentElement := none } }

/-- C5: pointer-up during a drawing gesture appends the in-progress element to
the collection (prior elements unchanged and in order), pushes a history
snapshot of the result, broadcasts the updated collection, and clears the
drawing state; concretely, dragging a rectangle from world (10,10) to (110,60)
with color "#000000" and stroke width 2 commits a rectangle at origin (10,10)
with width 100 and height 50. -/
theorem pointerUp_commits_and_clears (s : WhiteboardState) (el : WhiteboardElement)
    (hnp : s.isPanning = false) (hd : s.drawing.isDrawing = true)
    (hel : s.drawing.currentElement = some el) :
    (handleMouseUp s).app.elements = s.app.elements ++ [el] ∧
    (handleMouseUp s).app.history
      = s.app.history.take (s.app.historyIndex + 1) ++ [s.app.elements ++ [el]] ∧
    (handleMouseUp s).app.historyIndex
      = (s.app.history.take (s.app.historyIndex + 1)
          ++ [s.app.elements ++ [el]]).length - 1 ∧
    (handleMouseUp s).broadcasts = s.broadcasts ++ [s.app.elements ++ [el]] ∧
    (handleMouseUp s).drawing
      = { isDrawing := false, currentPath := [], currentElement := none } ∧
    (∀ (e : WhiteboardElement) (p : Point) (path : List Point),
      e.type = .rectangle →
        updateElementWithPoint e p path
          = { e with width := some (p.x - e.x), height := some (p.y - e.y) }) ∧
    (handleMouseUp (handleMouseMove .rectangle 110 60 0 0
        (handleMouseDown .rectangle "#000000" 2 "id1" 10 10 0 0
          initialWhiteboardState))).app.elements
      = [{ id := "id1", type := .rectangle, x := 10, y := 10, width := some 100,
           height := some 50, color := "#000000", strokeWidth := 2 }] := by
  refine ⟨?_, ?_, ?_, ?_, ?_, ?_, ?_⟩
  · simp [handleMouseUp, hnp, hd, hel, handleElementsChange]
  · simp [handleMouseUp, hnp, hd, hel, handleElementsChange]
  · simp [handleMouseUp, hnp, hd, hel, handleElementsChange]
  · simp [handleMouseUp, hnp, hd, hel, handleElementsChange]
  · simp [handleMouseUp, hnp, hd, hel]
  · intro e p path he
    simp [updateElementWithPoint, he]
  · simp [handleMouseUp, handleMouseMove, handleMouseDown, initialWhiteboardState,
      initialAppState, screenToCanvas, createNewElement, updateElementWithPoint,
      handleElementsChange, toolElementType]
    norm_num

/-- C5 witness: the commit behaviour evaluated at a concrete mid-gesture
state. -/
theorem pointerUp_commits_and_clears_witness :
    (WhiteboardState.mk (AppState.mk [] [[]] 0)
        (DrawingState.mk true [Point.mk 0 0] (some (sampleElement "w")))
        false (Point.mk 0 0) (ViewportState.mk 0 0 1) [] []).isPanning = false ∧
    (WhiteboardState.mk (AppState.mk [] [[]] 0)
        (DrawingState.mk true [Point.mk 0 0] (some (sampleElement "w")))
        false (Point.mk 0 0) (ViewportState.mk 0 0 1) [] []).drawing.isDrawing = true ∧
    (handleMouseUp (WhiteboardState.mk (AppState.mk [] [[]] 0)
        (DrawingState.mk true [Point.mk 0 0] (some (sampleElement "w")))
        false (Point.mk 0 0) (ViewportState.mk 0 0 1) [] [])).app.elements
      = (WhiteboardState.mk (AppState.mk [] [[]] 0)
          (DrawingState.mk true [Point.mk 0 0] (some (sampleElement "w")))
          false (Point.mk 0 0) (ViewportState.mk 0 0 1) [] []).app.elements
        ++ [sampleElement "w"] :=
  ⟨rfl, rfl,
    (pointerUp_commits_and_clears
      (WhiteboardState.mk (AppState.mk [] [[]] 0)
        (DrawingState.mk true [Point.mk 0 0] (some (sampleElement "w")))
        false (Point.mk 0 0) (ViewportState.mk 0 0 1) [] [])
      (sampleElement "w") rfl rfl rfl).1⟩

/-- When `find?` locates a first match in a list with pairwise-distinct ids,
the id-based selection rewrite marks exactly the match's position: entry `i`
holds the match, every earlier entry fails the predicate, and position `j` of
the rewritten list is position `j` of the original with `selected` set to
whether `j = i`. -/
theorem find_select_characterization (p : WhiteboardElement → Bool) :
    ∀ (l : List WhiteboardElement) (clicked : WhiteboardElement),
      (l.map (fun el => el.id)).Nodup →
      l.find? p = some clicked →
      ∃ i : Nat,
        l[i]? = some clicked ∧ p clicked = true ∧
        (∀ j, j < i → ∀ el, l[j]? = some el → p el = false) ∧
        (∀ j : Nat, (l.map (fun el => { el with selected := some (el.id == clicked.id) }))[j]?
          = l[j]?.map (fun el : WhiteboardElement => { el with selected := some (decide (j = i)) })) := by
  intro l
  induction l with
  | nil => intro clicked _ hfind; simp at hfind
  | cons a l ih =>
      intro clicked hnodup hfind
      have hnodup' : (l.map (fun el => el.id)).Nodup := by
        simp only [List.map_cons, List.nodup_cons] at hnodup
        exact hnodup.2
      have hnotmem : a.id ∉ l.map (fun el => el.id) := by
        simp only [List.map_cons, List.nodup_cons] at hnodup
        exact hnodup.1
      by_cases hp : p a
      · have hca : clicked = a := by
          rw [List.find?_cons_of_pos _ hp] at hfind
          exact (Option.some_inj.mp hfind).symm
        subst hca
        refine ⟨0, by simp, hp, by intro j hj; omega, ?_⟩
        intro j
        cases j with
        | zero => simp
        | succ k =>
            simp only [List.map_cons, List.getElem?_cons_succ, List.getElem?_map]
            cases hk : l[k]? with
            | none => rfl
            | some el =>
                have hmem : el ∈ l := List.getElem?_mem hk
                have hid : el.id ≠ clicked.id := by
                  intro hh
                  exact hnotmem (hh ▸ List.mem_map_of_mem _ hmem)
                simp [hid, Nat.succ_ne_zero]
      · have hfind' : l.find? p = some clicked := by
          rwa [List.find?_cons_of_neg _ hp] at hfind
        obtain ⟨i, hgi, hpc, hbefore, hpoint⟩ := ih clicked hnodup' hfind'
        refine ⟨i + 1, by simpa using hgi, hpc, ?_, ?_⟩
        · intro j hj el hel
          cases j with
          | zero =>
              simp only [List.getElem?_cons_zero, Option.some_inj] at hel
              rw [← hel]
              exact eq_false_of_ne_true (fun hh => hp hh)
          | succ k =>
              simp only [List.getElem?_cons_succ] at hel
              exact hbefore k (by omega) el hel
        · intro j
          cases j with
          | zero =>
              have hcl : clicked ∈ l := List.getElem?_mem hgi
              have hid : a.id ≠ clicked.id := fun hh =>
                hnotmem (hh ▸ List.mem_map_of_mem _ hcl)
              simp [hid]
          | succ k =>
              simp only [List.map_cons, List.getElem?_cons_succ]
              rw [hpoint k]
              have hdec : (decide (k + 1 = i + 1)) = (decide (k = i)) := by
                simp
              rw [← hdec]

/-- C7: pointer-down with the select tool scans the collection in storage
order; when some element contains the point, the first such element is the
one selected — after the operation its `selected` flag is true, every other
element's is false, and every other field, the length and the order are
unchanged; when no element contains the point, every `selected` flag becomes
false and the machine enters panning. -/
theorem select_click_selects_first_hit
    (strokeColor freshId : String) (strokeWidth clientX clientY rectLeft rectTop : ℚ)
    (s s2 : WhiteboardState) (clicked : WhiteboardElement)
    (hnodup : (s.app.elements.map (fun el => el.id)).Nodup)
    (hfind : s.app.elements.find? (fun el => isPointInElement
        (screenToCanvas clientX clientY rectLeft rectTop s.viewport) el)
      = some clicked)
    (hmiss : s2.app.elements.find? (fun el => isPointInElement
        (screenToCanvas clientX clientY rectLeft rectTop s2.viewport) el) = none) :
    (∃ i : Nat,
      s.app.elements[i]? = some clicked ∧
      isPointInElement (screenToCanvas clientX clientY rectLeft rectTop s.viewport)
        clicked = true ∧
      (∀ j, j < i → ∀ el, s.app.elements[j]? = some el →
        isPointInElement (screenToCanvas clientX clientY rectLeft rectTop s.viewport)
          el = false) ∧
      (∀ j : Nat, (handleMouseDown .select strokeColor strokeWidth freshId clientX clientY
            rectLeft rectTop s).app.elements[j]?
        = s.app.elements[j]?.map
            (fun el : WhiteboardElement => { el with selected := some (decide (j = i)) }))) ∧
    (handleMouseDown .select strokeColor strokeWidth freshId clientX clientY
        rectLeft rectTop s).isPanning = s.isPanning ∧
    (∀ j : Nat, (handleMouseDown .select strokeColor strokeWidth freshId clientX clientY
          rectLeft rectTop s2).app.elements[j]?
      = s2.app.elements[j]?.map (fun el : WhiteboardElement => { el with selected := some false })) ∧
    (handleMouseDown .select strokeColor strokeWidth freshId clientX clientY
        rectLeft rectTop s2).isPanning = true := by
  have hres : (handleMouseDown .select strokeColor strokeWidth freshId clientX clientY
      rectLeft rectTop s).app.elements
      = s.app.elements.map (fun el => { el with selected := some (el.id == clicked.id) }) := by
    simp [handleMouseDown, hfind, handleElementsChange]
  have hres2 : (handleMouseDown .select strokeColor strokeWidth freshId clientX clientY
      rectLeft rectTop s2).app.elements
      = s2.app.elements.map (fun el => { el with selected := some false }) := by
    simp [handleMouseDown, hmiss, handleElementsChange]
  refine ⟨?_, ?_, ?_, ?_⟩
  · obtain ⟨i, hgi, hpc, hbefore, hpoint⟩ :=
      find_select_characterization _ s.app.elements clicked hnodup hfind
    exact ⟨i, hgi, hpc, hbefore, fun j => by rw [hres, hpoint j]⟩
  · simp [handleMouseDown, hfind]
  · intro j
    rw [hres2, List.getElem?_map]
  · simp [handleMouseDown, hmiss]

/-- A concrete 100×100 rectangle at the origin, hit-tested in the C7
witness. -/
def hitRect : WhiteboardElement :=
  { id := "r", type := .rectangle, x := 0, y := 0, width := some 100,
    height := some 100, color := "#000000", strokeWidth := 2 }

/-- Interactive state holding just `hitRect`, for the C7 witness. -/
def hitState : WhiteboardState :=
  { initialWhiteboardState with app := { initialAppState with elements := [hitRect] } }

/-- C7 witness: the selection theorem applied at a one-rectangle collection
clicked at world (5,5), and at the empty collection for the panning branch. -/
theorem select_click_selects_first_hit_witness :
    (hitState.app.elements.map (fun el => el.id)).Nodup ∧
    hitState.app.elements.find? (fun el => isPointInElement
        (screenToCanvas 5 5 0 0 hitState.viewport) el) = some hitRect ∧
    initialWhiteboardState.app.elements.find? (fun el => isPointInElement
        (screenToCanvas 5 5 0 0 initialWhiteboardState.viewport) el) = none ∧
    (handleMouseDown .select "#000000" 2 "f" 5 5 0 0 initialWhiteboardState).isPanning
      = true := by
  have hno : (hitState.app.elements.map (fun el => el.id)).Nodup := by
    simp [hitState, initialAppState, initialWhiteboardState, hitRect]
  have hfind : hitState.app.elements.find? (fun el => isPointInElement
      (screenToCanvas 5 5 0 0 hitState.viewport) el) = some hitRect := by
    have hin : isPointInElement
        (screenToCanvas 5 5 0 0 (ViewportState.mk 0 0 1)) hitRect = true := by
      simp [screenToCanvas, isPointInElement, qOr, hitRect]
      norm_num
    simp [hitState, initialAppState, initialWhiteboardState, List.find?_cons, hin]
  have hmiss : initialWhiteboardState.app.elements.find? (fun el => isPointInElement
      (screenToCanvas 5 5 0 0 initialWhiteboardState.viewport) el) = none := rfl
  exact ⟨hno, hfind, hmiss,
    (select_click_selects_first_hit "#000000" "f" 2 5 5 0 0 hitState
      initialWhiteboardState hitRect hno hfind hmiss).2.2.2⟩

/-- A circle occupying the box (40,40)–(60,60): center (50,50), radius 10. -/
def circleFifty : WhiteboardElement :=
  { id := "c", type := .circle, x := 40, y := 40, width := some 20,
    height := some 20, color := "#000000", strokeWidth := 2 }

/-- C6: `isPointInElement` is bounding-box containment for rectangles and
sticky notes (hence always false when the box has negative width or height),
Euclidean-distance-to-center ≤ min(width,height)/2 for circles, and false for
every other kind; concretely, for the circle with center (50,50) and radius
10, (50,59) is inside and (50,61) is outside. -/
theorem pointInElement_characterization (p : Point) (e : WhiteboardElement) :
    ((e.type = .rectangle ∨ e.type = .stickyNote) →
      (isPointInElement p e = true ↔
        (e.x ≤ p.x ∧ p.x ≤ e.x + qOr e.width 0 ∧
          e.y ≤ p.y ∧ p.y ≤ e.y + qOr e.height 0))) ∧
    ((e.type = .rectangle ∨ e.type = .stickyNote) →
      (qOr e.width 0 < 0 ∨ qOr e.height 0 < 0) → isPointInElement p e = false) ∧
    (e.type = .circle →
      (isPointInElement p e = true ↔
        Real.sqrt (((p.x - (e.x + qOr e.width 0 / 2)) ^ 2
            + (p.y - (e.y + qOr e.height 0 / 2)) ^ 2 : ℚ) : ℝ)
          ≤ ((min (qOr e.width 0 / 2) (qOr e.height 0 / 2) : ℚ) : ℝ))) ∧
    ((e.type = .path ∨ e.type = .arrow ∨ e.type = .line ∨ e.type = .text ∨
        e.type = .richNote) → isPointInElement p e = false) ∧
    (isPointInElement (Point.mk 50 59) circleFifty = true ∧
      isPointInElement (Point.mk 50 61) circleFifty = false) := by
  refine ⟨?_, ?_, ?_, ?_, ?_, ?_⟩
  · rintro (he | he) <;> simp [isPointInElement, he, and_assoc]
  · rintro (he | he) hneg <;>
      · simp only [isPointInElement, he]
        simp only [decide_eq_false_iff_not]
        rintro ⟨h1, h2, h3, h4⟩
        rcases hneg with hn | hn <;> linarith
  · intro he
    simp only [isPointInElement, he, decide_eq_true_eq]
    rw [Real.sqrt_le_iff]
    constructor
    · rintro ⟨h0, hd⟩
      exact ⟨by exact_mod_cast h0, by push_cast; exact_mod_cast hd⟩
    · rintro ⟨h0, hd⟩
      refine ⟨by exact_mod_cast h0, ?_⟩
      have := hd
      push_cast at this
      exact_mod_cast this
  · rintro (he | he | he | he | he) <;> simp [isPointInElement, he]
  · simp [isPointInElement, circleFifty, qOr]
    norm_num
  · simp [isPointInElement, circleFifty, qOr]
    norm_num

/-- C6 witness: the rectangle characterization applied to a concrete 100×100
rectangle and the point (5,5). -/
theorem pointInElement_characterization_witness :
    (hitRect.type = .rectangle ∨ hitRect.type = .stickyNote) ∧
    (isPointInElement (Point.mk 5 5) hitRect = true ↔
      (hitRect.x ≤ (Point.mk 5 5).x ∧
        (Point.mk 5 5).x ≤ hitRect.x + qOr hitRect.width 0 ∧
        hitRect.y ≤ (Point.mk 5 5).y ∧
        (Point.mk 5 5).y ≤ hitRect.y + qOr hitRect.height 0)) :=
  ⟨Or.inl rfl, (pointInElement_characterization (Point.mk 5 5) hitRect).1 (Or.inl rfl)⟩

/-- One canvas-2D drawing operation, as issued by the renderers. `arcFull`
stands for `ctx.arc(cx, cy, r, 0, 2π)` (both call sites use the constant full
sweep); `setFont s` stands for assigning the font string whose pixel size is
`s` (the rest of the string is the constant " px Inter, sans-serif"). -/
inductive DrawOp
  | setStrokeStyle (color : String)
  | setLineWidth (w : ℚ)
  | setLineCapRound
  | setLineJoinRound
  | beginPath
  | moveTo (x y : ℚ)
  | lineTo (x y : ℚ)
  | stroke
  | rect (x y w h : ℚ)
  | setFillStyle (c : String)
  | fill
  | arcFull (cx cy r : ℚ)
  | setFont (size : ℚ)
  | fillText (t : String) (x y : ℚ)
  | fillRect (x y w h : ℚ)
  | strokeRect (x y w h : ℚ)
  | setLineDash (dash : List ℚ)
deriving DecidableEq, Repr

/-- The per-kind portion of Canvas.tsx `drawElement` (the style preamble and
the `switch (element.type)`), transcribed as its operation sequence. -/
def drawElementKindOps (element : WhiteboardElement) : List DrawOp :=
  [.setStrokeStyle element.color, .setLineWidth element.strokeWidth,
   .setLineCapRound, .setLineJoinRound] ++
  match element.type with
  | .path =>
      match element.points with
      | some (p0 :: rest) =>
          if (p0 :: rest).length > 1 then
            [DrawOp.beginPath, DrawOp.moveTo p0.x p0.y]
              ++ rest.map (fun p => DrawOp.lineTo p.x p.y) ++ [DrawOp.stroke]
          else []
      | _ => []
  | .rectangle =>
      [DrawOp.beginPath,
       DrawOp.rect element.x element.y (qOr element.width 0) (qOr element.height 0)] ++
      (match element.fill with
       | some f => if f = "" then [] else [DrawOp.setFillStyle f, DrawOp.fill]
       | none => []) ++
      [DrawOp.stroke]
  | .circle =>
      [DrawOp.beginPath,
       DrawOp.arcFull (element.x + qOr element.width 0 / 2)
         (element.y + qOr element.height 0 / 2)
         (min (qOr element.width 0 / 2) (qOr element.height 0 / 2))] ++
      (match element.fill with
       | some f => if f = "" then [] else [DrawOp.setFillStyle f, DrawOp.fill]
       | none => []) ++
      [DrawOp.stroke]
  | .line =>
      [DrawOp.beginPath, DrawOp.moveTo element.x element.y,
       DrawOp.lineTo (element.x + qOr element.width 0)
         (element.y + qOr element.height 0),
       DrawOp.stroke]
  | .text =>
      [DrawOp.setFont (element.strokeWidth * 4),
       DrawOp.setFillStyle element.color,
       DrawOp.fillText (sOr element.text "") element.x element.y]
  | .stickyNote =>
      [DrawOp.setFillStyle (sOr element.fill "#fef08a"),
       DrawOp.fillRect element.x element.y (qOr element.width 100)
         (qOr element.height 100),
       DrawOp.strokeRect element.x element.y (qOr element.width 100)
         (qOr element.height 100)] ++
      (match element.text with
       | some t =>
           if t = "" then []
           else
             [DrawOp.setFont (element.strokeWidth * 3),
              DrawOp.setFillStyle "#374151"] ++
             (t.splitOn "\n").enum.map (fun pr =>
               DrawOp.fillText pr.2 (element.x + 8)
                 (element.y + 20 + (pr.1 : ℚ) * element.strokeWidth * 4))
       | none => [])
  | _ => []

/-- The selection-indicator tail of Canvas.tsx `drawElement` (dashed
`#4F46E5` box inflated by 5, widths scaled by `1/zoom`), issued only when the
element's `selected` flag is truthy. -/
def drawSelectionOps (zoom : ℚ) (element : WhiteboardElement) : List DrawOp :=
  if element.selected = some true then
    [.setStrokeStyle "#4F46E5", .setLineWidth (2 / zoom),
     .setLineDash [5 / zoom, 5 / zoom],
     .strokeRect (element.x - 5) (element.y - 5)
       (qOr element.width 0 + 10) (qOr element.height 0 + 10),
     .setLineDash []]
  else []

/-- Canvas.tsx `drawElement` in full: the per-kind operations followed by the
selection indicator. -/
def drawElement (zoom : ℚ) (element : WhiteboardElement) : List DrawOp :=
  drawElementKindOps element ++ drawSelectionOps zoom element

/-- The per-element body of App `handleExport`'s render loop, transcribed
independently from part_005 lines 111–193. -/
def handleExportElementOps (element : WhiteboardElement) : List DrawOp :=
  [.setStrokeStyle element.color, .setLineWidth element.strokeWidth,
   .setLineCapRound, .setLineJoinRound] ++
  match element.type with
  | .path =>
      match element.points with
      | some (p0 :: rest) =>
          if (p0 :: rest).length > 1 then
            [DrawOp.beginPath, DrawOp.moveTo p0.x p0.y]
              ++ rest.map (fun p => DrawOp.lineTo p.x p.y) ++ [DrawOp.stroke]
          else []
      | _ => []
  | .rectangle =>
      [DrawOp.beginPath,
       DrawOp.rect element.x element.y (qOr element.width 0) (qOr element.height 0)] ++
      (match element.fill with
       | some f => if f = "" then [] else [DrawOp.setFillStyle f, DrawOp.fill]
       | none => []) ++
      [DrawOp.stroke]
  | .circle =>
      [DrawOp.beginPath,
       DrawOp.arcFull (element.x + qOr element.width 0 / 2)
         (element.y + qOr element.height 0 / 2)
         (min (qOr element.width 0 / 2) (qOr element.height 0 / 2))] ++
      (match element.fill with
       | some f => if f = "" then [] else [DrawOp.setFillStyle f, DrawOp.fill]
       | none => []) ++
      [DrawOp.stroke]
  | .line =>
      [DrawOp.beginPath, DrawOp.moveTo element.x element.y,
       DrawOp.lineTo (element.x + qOr element.width 0)
         (element.y + qOr element.height 0),
       DrawOp.stroke]
  | .text =>
      [DrawOp.setFont (element.strokeWidth * 4),
       DrawOp.setFillStyle element.color,
       DrawOp.fillText (sOr element.text "") element.x element.y]
  | .stickyNote =>
      [DrawOp.setFillStyle (sOr element.fill "#fef08a"),
       DrawOp.fillRect element.x element.y (qOr element.width 100)
         (qOr element.height 100),
       DrawOp.strokeRect element.x element.y (qOr element.width 100)
         (qOr element.height 100)] ++
      (match element.text with
       | some t =>
           if t = "" then []
           else
             [DrawOp.setFont (element.strokeWidth * 3),
              DrawOp.setFillStyle "#374151"] ++
             (t.splitOn "\n").enum.map (fun pr =>
               DrawOp.fillText pr.2 (element.x + 8)
                 (element.y + 20 + (pr.1 : ℚ) * element.strokeWidth * 4))
       | none => [])
  | _ => []

/-- App `handleExport`: a 1920×1080 canvas painted white, then every element
rendered in storage order with raw (non-viewport-transformed) coordinates. -/
def handleExportOps (elements : List WhiteboardElement) : List DrawOp :=
  [DrawOp.setFillStyle "#ffffff", DrawOp.fillRect 0 0 1920 1080] ++
    elements.flatMap handleExportElementOps

/-- C10: for every element, the export routine issues exactly the operation
sequence of the live renderer's per-kind cases (same stroke style, line
width, fill decisions, raw coordinates); the full export is the white
1920×1080 background followed by those per-kind sequences in storage order;
the live `drawElement` is that same per-kind sequence followed only by the
selection indicator, so for any unselected element export and live renderer
issue identical sequences. -/
theorem export_matches_live_renderer :
    (∀ e : WhiteboardElement, handleExportElementOps e = drawElementKindOps e) ∧
    (∀ elements : List WhiteboardElement,
      handleExportOps elements
        = [DrawOp.setFillStyle "#ffffff", DrawOp.fillRect 0 0 1920 1080]
          ++ elements.flatMap drawElementKindOps) ∧
    (∀ (zoom : ℚ) (e : WhiteboardElement),
      drawElement zoom e = drawElementKindOps e ++ drawSelectionOps zoom e) ∧
    (∀ (zoom : ℚ) (e : WhiteboardElement), e.selected ≠ some true →
      drawElement zoom e = handleExportElementOps e) := by
  have h1 : ∀ e : WhiteboardElement, handleExportElementOps e = drawElementKindOps e :=
    fun e => rfl
  refine ⟨h1, ?_, fun zoom e => rfl, ?_⟩
  · intro elements
    simp only [handleExportOps, List.append_cancel_left_eq]
    exact congrArg elements.flatMap (funext h1)
  · intro zoom e hsel
    rw [drawElement, drawSelectionOps, if_neg hsel, List.append_nil, h1]

/-- C10 witness: an unselected element renders identically in export and live
renderer. -/
theorem export_matches_live_renderer_witness :
    (sampleElement "x").selected ≠ some true ∧
    drawElement 1 (sampleElement "x") = handleExportElementOps (sampleElement "x") :=
  ⟨by decide, export_matches_live_renderer.2.2.2 1 (sampleElement "x") (by decide)⟩

/-- C3 witness: the inverse property evaluated at a concrete viewport and
screen point. -/
theorem screenToCanvas_inverse_witness :
    (ViewportState.mk 10 20 2).zoom ≠ 0 ∧
    (screenToCanvas 100 40 0 0 (ViewportState.mk 10 20 2)).x *
      (ViewportState.mk 10 20 2).zoom + (ViewportState.mk 10 20 2).x = 100 - 0 :=
  ⟨by decide, (screenToCanvas_inverse 100 40 0 0 (ViewportState.mk 10 20 2)
    (by decide)).2.1⟩
